import Mathlib

/-!
Verification of the Piwik template-tag module
(`analytical/templatetags/piwik.py`) of django-analytical.

The module is embedded shallowly:

* Python strings are Lean `String`s (a structure over `List Char`);
  the Python string operations used by the module (`startswith`,
  slicing, `split`) are reimplemented over the character list.
* The two anchored regular expressions `DOMAINPATH_RE` and `SITEID_RE`
  are embedded as regular-expression syntax trees matched with
  Brzozowski derivatives; the patterns are transcribed literally from
  the source.
* A Django template context is modelled as the list of its scope
  dictionaries in the order Python iterates them, together with the
  request user and the internal-IP flag the request carries.
* Exceptions are modelled with `Except String`: a raised error
  propagates to the caller, exactly as in the Python control flow.
* Helpers that live in `analytical.utils` (not part of the sources at
  hand) are modelled from the specification and marked as such in
  their doc comments.
-/

set_option maxRecDepth 8000

namespace PiwikTags

/-! ## Character-list string helpers (Python string primitives) -/

/-- Boolean prefix test on character lists. -/
def isPrefixL : List Char → List Char → Bool
  | [], _ => true
  | _ :: _, [] => false
  | a :: restA, b :: restB => a = b && isPrefixL restA restB

/-- Python `s.startswith(p)`. -/
def strStartsWith (p s : String) : Bool := isPrefixL p.data s.data

/-- Python slicing `s[n:]`. -/
def strDrop (n : Nat) (s : String) : String := ⟨s.data.drop n⟩

/-- Boolean substring test on character lists. -/
def containsL (p : List Char) : List Char → Bool
  | [] => isPrefixL p []
  | c :: rest => isPrefixL p (c :: rest) || containsL p rest

/-- Boolean substring test on strings: does `s` contain `p`? -/
def containsB (p s : String) : Bool := containsL p.data s.data

/-- Python `s.split('_')`: split at every underscore, keeping empty
parts. -/
def splitOnUnderscore : List Char → List (List Char)
  | [] => [[]]
  | c :: rest =>
    match splitOnUnderscore rest with
    | [] => [[]]
    | p :: parts => if c = '_' then [] :: p :: parts else (c :: p) :: parts

/-! ## Regular expressions, matched with Brzozowski derivatives -/

/-- Regular-expression syntax: empty word, character class, sequence,
alternative, Kleene star.  A class is its membership predicate. -/
inductive RE : Type where
  | eps : RE
  | cls (p : Char → Bool) : RE
  | cat (a b : RE) : RE
  | alt (a b : RE) : RE
  | star (a : RE) : RE

/-- The empty language. -/
def RE.emp : RE := .cls fun _ => false

/-- Does the regular expression accept the empty word? -/
def RE.nullable : RE → Bool
  | .eps => true
  | .cls _ => false
  | .cat a b => a.nullable && b.nullable
  | .alt a b => a.nullable || b.nullable
  | .star _ => true

/-- Brzozowski derivative with respect to one character. -/
def RE.deriv : RE → Char → RE
  | .eps, _ => .emp
  | .cls p, c => if p c then .eps else .emp
  | .cat a b, c =>
    if a.nullable then .alt (.cat (a.deriv c) b) (b.deriv c)
    else .cat (a.deriv c) b
  | .alt a b, c => .alt (a.deriv c) (b.deriv c)
  | .star a, c => .cat (a.deriv c) (.star a)

/-- Anchored (whole-string) match, as Python `re.match` on a pattern
anchored with `^...$`. -/
def reMatch (r : RE) (s : String) : Bool :=
  (s.data.foldl RE.deriv r).nullable

/-- One or more repetitions, `r+`. -/
def rePlus (r : RE) : RE := .cat r (.star r)

/-- A single literal character. -/
def reChar (c : Char) : RE := .cls fun x => x = c

/-- The class `[^./?#@:]` of the domain-path pattern. -/
def domainChar : RE :=
  .cls fun c => !(c = '.' || c = '/' || c = '?' || c = '#' || c = '@' || c = ':')

/-- The class `[^/?#@:]` of the domain-path pattern's path segments. -/
def pathChar : RE :=
  .cls fun c => !(c = '/' || c = '?' || c = '#' || c = '@' || c = ':')

/-- Source: `DOMAINPATH_RE = re.compile(r'^(([^./?#@:]+\.)+[^./?#@:]+)+(/[^/?#@:]+)*$')`,
a domain name (labels separated by dots), optionally followed by a URI
path, no trailing slash. -/
def DOMAINPATH_RE : RE :=
  .cat (rePlus (.cat (rePlus (.cat (rePlus domainChar) (reChar '.')))
                     (rePlus domainChar)))
       (.star (.cat (reChar '/') (rePlus pathChar)))

/-- Source: `SITEID_RE = re.compile(r'^\d+$')`, a numeric ID.  Python's
`\d` is modelled by `Char.isDigit`. -/
def SITEID_RE : RE := rePlus (.cls Char.isDigit)

/-! ## JSON encoding (Python `json.dumps`) -/

/-- A JSON-encodable value as passed to the search tag: a string, a
number or a boolean. -/
inductive JVal where
  | str (s : String)
  | num (n : Int)
  | bool (b : Bool)

/-- Modelled from the spec: arguments of the search tag are
JSON-encoded (`json.dumps` of the Python standard library); the
standard JSON string escapes. -/
def jsonEscapeChar (c : Char) : String :=
  if c = '\\' then "\\\\"
  else if c = '\"' then "\\\""
  else if c = '\n' then "\\n"
  else if c = '\r' then "\\r"
  else if c = '\t' then "\\t"
  else c.toString

/-- Modelled from the spec: `json.dumps` on the values the search tag
accepts. -/
def jsonDumps : JVal → String
  | .str s => "\"" ++ String.join (s.data.map jsonEscapeChar) ++ "\""
  | .num n => toString n
  | .bool true => "true"
  | .bool false => "false"

/-! ## Context, user and the external collaborators of the module -/

/-- The request user as the module sees it: a username and the
authentication flag consulted by `user.is_authenticated()`. -/
structure User where
  username : String
  is_authenticated : Bool

/-- A Django template context: the scope dictionaries in the order
Python iterates them (each a list of key/value pairs in iteration
order), the request user, and whether the request comes from an
internal IP address. -/
structure Context where
  scopes : List (List (String × String))
  user : Option User
  internal : Bool

/-- Modelled from the spec: `analytical.utils.get_user_from_context`
returns the user of the request being rendered, if any. -/
def get_user_from_context (ctx : Context) : Option User := ctx.user

/-- Source: `_identify(user)` returns `user.username`. -/
def _identify (user : User) : String := user.username

/-- Modelled from the spec: `analytical.utils.get_identity`, the
identity helper used for the authenticated-user lookup; it produces
the identity of the user via the supplied identify function. -/
def get_identity (_ctx : Context) (_product : String)
    (identify : User → String) (user : User) : String :=
  identify user

/-- Modelled from the spec: `analytical.utils.is_internal_ip` flags
requests from configured internal addresses. -/
def is_internal_ip (ctx : Context) (_product : String) : Bool := ctx.internal

/-- Modelled from the spec: `analytical.utils.disable_html` wraps the
rendered snippet in an HTML comment so it renders as inert
(commented-out) markup instead of executing. -/
def disable_html (html product : String) : String :=
  "<!-- " ++ product ++ " disabled on internal IP address\n" ++ html ++ "\n-->"

/-! ## Settings and the setting validator -/

/-- The Django settings the module reads, as a key/value list. -/
abbrev Settings := List (String × String)

/-- Lookup in a Python dictionary modelled as a key/value list. -/
def lookupDict : List (String × String) → String → Option String
  | [], _ => none
  | (k, v) :: rest, key => if k = key then some v else lookupDict rest key

/-- Modelled from the spec: `analytical.utils.get_required_setting`
fetches a named setting, requires it to match a regular expression,
and fails loudly if it is missing or invalid. -/
def get_required_setting (stg : Settings) (name : String) (re : RE)
    (msg : String) : Except String String :=
  match lookupDict stg name with
  | none => .error (name ++ " setting: not found")
  | some value =>
    if reMatch re value then .ok value
    else .error (name ++ " setting: " ++ msg)

/-- Error message for the domain-path setting, from the source. -/
def domainPathMsg : String :=
  "must be a domain name, optionally followed by an URI path, no trailing slash (e.g. piwik.example.com or my.piwik.server/path)"

/-- Error message for the site-ID setting, from the source. -/
def siteIdMsg : String := "must be a (string containing a) number"

/-! ## The tracking-code template -/

/-- Source: `TRACKING_CODE`, the fixed template, filled with the
`%(method)s`, `%(url)s`, `%(siteid)s` and `%(pretrack)s` fields. -/
def TRACKING_CODE (method url siteid pretrack : String) : String :=
  "\n<script type=\"text/javascript\">\n  var _paq = _paq || [];\n  "
  ++ pretrack
  ++ "\n  _paq.push("
  ++ method
  ++ ");\n  _paq.push([\x27enableLinkTracking\x27]);\n  (function() \x7b\n    var u=((\"https:\" == document.location.protocol) ? \"https\" : \"http\") + \"//"
  ++ url
  ++ "/\";\n    _paq.push([\x27setTrackerUrl\x27, u+\x27piwik.php\x27]);\n    _paq.push([\x27setSiteId\x27, "
  ++ siteid
  ++ "]);\n    var d=document, g=d.createElement(\x27script\x27), s=d.getElementsByTagName(\x27script\x27)[0]; g.type=\x27text/javascript\x27;\n    g.defer=true; g.async=true; g.src=u+\x27piwik.js\x27; s.parentNode.insertBefore(g,s);\n  \x7d)();\n</script>\n<noscript><p><img src=\"http://"
  ++ url
  ++ "/piwik.php?idsite="
  ++ siteid
  ++ "\" style=\"border:0;\" alt=\"\" /></p></noscript>\n"

/-! ## The context scanner `_get_additional_calls` -/

/-- Python dictionary update `d[k] = v`: replace in place when the key
is present, append otherwise. -/
def dictPut (d : List (String × String)) (k v : String) :
    List (String × String) :=
  match d with
  | [] => [(k, v)]
  | (k0, v0) :: rest =>
    if k0 = k then (k0, v) :: rest else (k0, v0) :: dictPut rest k v

/-- Python `del d[k]`. -/
def eraseKey : List (String × String) → String → List (String × String)
  | [], _ => []
  | (k0, v0) :: rest, k =>
    if k0 = k then eraseKey rest k else (k0, v0) :: eraseKey rest k

/-- The inner loop of the scanner: for every `var, val` of one scope
dictionary, if `var.startswith('piwik_')` then `vars[var[6:]] = val`. -/
def collectScope (vars : List (String × String)) :
    List (String × String) → List (String × String)
  | [] => vars
  | (k, v) :: rest =>
    collectScope
      (if strStartsWith "piwik_" k then dictPut vars (strDrop 6 k) v else vars)
      rest

/-- The outer loop of the scanner over the context scopes. -/
def collectVarsAux (vars : List (String × String)) :
    List (List (String × String)) → List (String × String)
  | [] => vars
  | d :: ds => collectVarsAux (collectScope vars d) ds

/-- The `vars` dictionary gathered by the scanner from the context. -/
def collectVars (scopes : List (List (String × String))) :
    List (String × String) :=
  collectVarsAux [] scopes

/-- Source: `'_paq.push(["setUserId", "%s"]);\n' % userid`. -/
def setUserIdLine (v : String) : String :=
  "_paq.push([\"setUserId\", \"" ++ v ++ "\"]);\n"

/-- Source: `'_paq.push(["setDocumentTitle", "%s"]);\n' % title`. -/
def setDocumentTitleLine (t : String) : String :=
  "_paq.push([\"setDocumentTitle\", \"" ++ t ++ "\"]);\n"

/-- Source: the `setCustomVariable` line of the custom-variable loop. -/
def setCustomVariableLine (i : Nat) (name value scope : String) : String :=
  "_paq.push([\x27setCustomVariable\x27, " ++ toString i ++ ", \x27"
  ++ name ++ "\x27, \x27" ++ value ++ "\x27, \x27" ++ scope ++ "\x27]);\n"

/-- Error reported for a custom-variable key that does not split into
exactly a name and a scope (Python's `ValueError` from unpacking
`raw_name.split('_')`). -/
def splitErr (rawName : String) : String :=
  "cannot unpack " ++ rawName ++ " into name and scope"

/-- The custom-variable loop: `for index, (raw_name, value) in
enumerate(vars.items())`, with `name, scope = raw_name.split('_')`
raising when the split does not produce exactly two parts. -/
def customVarLines : Nat → List (String × String) → Except String String
  | _, [] => .ok ""
  | i, (rawName, value) :: rest =>
    match splitOnUnderscore rawName.data with
    | [name, scope] =>
      match customVarLines (i + 1) rest with
      | .error e => .error e
      | .ok s => .ok (setCustomVariableLine i ⟨name⟩ value ⟨scope⟩ ++ s)
    | _ => .error (splitErr rawName)

/-- The conditional delete of the scanner: `del vars[k]` is executed
exactly on the branch where the key was found. -/
def popKey (d : List (String × String)) (k : String) :
    List (String × String) :=
  match lookupDict d k with
  | none => d
  | some _ => eraseKey d k

/-- The `pretrack` accumulator after the user-ID step of the scanner:
the `setUserId` line from the `userid` context variable, or, absent
that, from the identity lookup on an authenticated request user. -/
def userPretrack (ctx : Context) (vars : List (String × String)) : String :=
  match lookupDict vars "userid" with
  | none =>
    match get_user_from_context ctx with
    | some user =>
      if user.is_authenticated then
        setUserIdLine (get_identity ctx "piwik" _identify user)
      else ""
    | none => ""
  | some v => setUserIdLine v

/-- The `var_str` accumulator after the document-title step of the
scanner. -/
def titleVarStr (vars : List (String × String)) : String :=
  match lookupDict vars "document_title" with
  | none => ""
  | some t => setDocumentTitleLine t

/-- Source: `_get_additional_calls(context)`.  Gathers the `piwik_`
variables, emits `setUserId` (from the context variable or, absent
that, the authenticated-user identity lookup), `setDocumentTitle`, and
the indexed `setCustomVariable` lines; the final string is
`var_str + pretrack`, i.e. title line, then custom variables, then
the user-ID line. -/
def _get_additional_calls (ctx : Context) : Except String String :=
  let vars := collectVars ctx.scopes
  let pretrack := userPretrack ctx vars
  let vars := popKey vars "userid"
  let varStr := titleVarStr vars
  let vars := popKey vars "document_title"
  match customVarLines 0 vars with
  | .error e => .error e
  | .ok cv => .ok (varStr ++ cv ++ pretrack)

/-! ## Statement-level view of the pre-track calls

The scanner emits a sequence of `_paq.push` statements; the statement
list below mirrors `_get_additional_calls` with the string rendering
factored out, so that properties about "calls" (how many, in which
order, with which indices) can be stated structurally. -/

/-- One emitted pre-track statement. -/
inductive PStmt where
  | setUserId (v : String)
  | setDocumentTitle (t : String)
  | setCustomVariable (i : Nat) (name value scope : String)

/-- The exact source line of one statement. -/
def PStmt.render : PStmt → String
  | .setUserId v => setUserIdLine v
  | .setDocumentTitle t => setDocumentTitleLine t
  | .setCustomVariable i n v s => setCustomVariableLine i n v s

/-- Concatenation of the rendered statements. -/
def renderStmts (l : List PStmt) : String :=
  l.foldr (fun s acc => s.render ++ acc) ""

/-- Statement-level custom-variable loop. -/
def customVarStmts : Nat → List (String × String) → Except String (List PStmt)
  | _, [] => .ok []
  | i, (rawName, value) :: rest =>
    match splitOnUnderscore rawName.data with
    | [name, scope] =>
      match customVarStmts (i + 1) rest with
      | .error e => .error e
      | .ok l => .ok (.setCustomVariable i ⟨name⟩ value ⟨scope⟩ :: l)
    | _ => .error (splitErr rawName)

/-- Statement-level view of the user-ID step. -/
def userPretrackStmts (ctx : Context) (vars : List (String × String)) :
    List PStmt :=
  match lookupDict vars "userid" with
  | none =>
    match get_user_from_context ctx with
    | some user =>
      if user.is_authenticated then
        [.setUserId (get_identity ctx "piwik" _identify user)]
      else []
    | none => []
  | some v => [.setUserId v]

/-- Statement-level view of the document-title step. -/
def titleStmts (vars : List (String × String)) : List PStmt :=
  match lookupDict vars "document_title" with
  | none => []
  | some t => [.setDocumentTitle t]

/-- Statement-level view of `_get_additional_calls`: the emitted
statements in the order they appear in the returned string. -/
def additionalStmts (ctx : Context) : Except String (List PStmt) :=
  let vars := collectVars ctx.scopes
  let userPart := userPretrackStmts ctx vars
  let vars := popKey vars "userid"
  let titlePart := titleStmts vars
  let vars := popKey vars "document_title"
  match customVarStmts 0 vars with
  | .error e => .error e
  | .ok l => .ok (titlePart ++ l ++ userPart)

/-- Is the statement a `setUserId` call? -/
def PStmt.isSetUserId : PStmt → Bool
  | .setUserId _ => true
  | _ => false

/-- Is the statement a `setDocumentTitle` call? -/
def PStmt.isSetDocumentTitle : PStmt → Bool
  | .setDocumentTitle _ => true
  | _ => false

/-- Is the statement a `setCustomVariable` call? -/
def PStmt.isCustomVar : PStmt → Bool
  | .setCustomVariable _ _ _ _ => true
  | _ => false

/-- The index of a `setCustomVariable` call. -/
def PStmt.cvIndex : PStmt → Option Nat
  | .setCustomVariable i _ _ _ => some i
  | _ => none

/-- The custom variables remaining after the `userid` and
`document_title` keys are taken out: the keys iterated by the
custom-variable loop. -/
def remainingVars (ctx : Context) : List (String × String) :=
  popKey (popKey (collectVars ctx.scopes) "userid") "document_title"

/-! ## The pageview tag -/

/-- The method pushed by the pageview tag, `['trackPageView']`. -/
def pageviewMethod : String := "[\x27trackPageView\x27]"

/-- The node of the `piwik` template tag; its fields are the validated
settings captured at construction. -/
structure PiwikNode where
  domain_path : String
  site_id : String

/-- Source: `PiwikNode.__init__`, which validates `PIWIK_DOMAIN_PATH`
and `PIWIK_SITE_ID` at tag-construction time. -/
def PiwikNode.init (stg : Settings) : Except String PiwikNode :=
  match get_required_setting stg "PIWIK_DOMAIN_PATH" DOMAINPATH_RE domainPathMsg with
  | .error e => .error e
  | .ok d =>
    match get_required_setting stg "PIWIK_SITE_ID" SITEID_RE siteIdMsg with
    | .error e => .error e
    | .ok s => .ok ⟨d, s⟩

/-- Source: `PiwikNode.render`: gather the pre-track statements, fill
the template with method `['trackPageView']`, the stored domain and
site ID, then apply the internal-IP gate. -/
def PiwikNode.render (node : PiwikNode) (ctx : Context) : Except String String :=
  match _get_additional_calls ctx with
  | .error e => .error e
  | .ok pretrack =>
    let html := TRACKING_CODE pageviewMethod node.domain_path node.site_id pretrack
    if is_internal_ip ctx "PIWIK" then .ok (disable_html html "Piwik")
    else .ok html

/-! ## The search tag -/

/-- The method pushed by the search tag:
`"['trackSiteSearch', %s, %s, %s]" % (json.dumps(query),
json.dumps(category), json.dumps(count))`. -/
def searchMethod (query : String) (category count : JVal) : String :=
  "[\x27trackSiteSearch\x27, " ++ jsonDumps (.str query) ++ ", "
  ++ jsonDumps category ++ ", " ++ jsonDumps count ++ "]"

/-- Source: `piwik_search(context, query, category=False, count=False)`:
re-validates both settings at call time, gathers the pre-track
statements, fills the template with the `trackSiteSearch` method, then
applies the internal-IP gate. -/
def piwik_search (stg : Settings) (ctx : Context) (query : String)
    (category : JVal := JVal.bool false) (count : JVal := JVal.bool false) :
    Except String String :=
  match get_required_setting stg "PIWIK_DOMAIN_PATH" DOMAINPATH_RE domainPathMsg with
  | .error e => .error e
  | .ok domain_path =>
    match get_required_setting stg "PIWIK_SITE_ID" SITEID_RE siteIdMsg with
    | .error e => .error e
    | .ok site_id =>
      match _get_additional_calls ctx with
      | .error e => .error e
      | .ok pretrack =>
        let html :=
          TRACKING_CODE (searchMethod query category count) domain_path site_id pretrack
        if is_internal_ip ctx "PIWIK" then .ok (disable_html html "Piwik")
        else .ok html

/-! ## Live-markup analysis of the disabled snippet

`stripComments` removes the regions of an HTML string that stand
inside `<!-- ... -->` comments; what remains is the live markup.  A
string has no live `<script>` tag when its live markup does not
contain `<script`. -/

/-- Remove HTML comment regions.  The flag records whether the scanner
currently stands inside a comment; the fuel (always at least the
length of the list) makes the recursion structural. -/
def stripFuel : Nat → Bool → List Char → List Char
  | 0, _, _ => []
  | _ + 1, _, [] => []
  | fuel + 1, false, c :: rest =>
    if isPrefixL ['<', '!', '-', '-'] (c :: rest) then
      stripFuel fuel true (rest.drop 3)
    else c :: stripFuel fuel false rest
  | fuel + 1, true, c :: rest =>
    if isPrefixL ['-', '-', '>'] (c :: rest) then
      stripFuel fuel false (rest.drop 2)
    else stripFuel fuel true rest

/-- The live (non-commented) markup of an HTML string. -/
def liveMarkup (s : String) : String := ⟨stripFuel s.data.length false s.data⟩

/-- Does the string contain a live (non-commented-out) `<script` tag
opener? -/
def hasLiveScript (s : String) : Bool := containsB "<script" (liveMarkup s)

/-- Does a render result carry a live `<script` tag opener? -/
def resultHasLiveScript : Except String String → Bool
  | .ok s => hasLiveScript s
  | .error _ => false

/-! ## Lemmas about the string helpers -/

theorem isPrefixL_append_self (p t : List Char) :
    isPrefixL p (p ++ t) = true := by
  induction p with
  | nil => rfl
  | cons c rest ih => simp [isPrefixL, ih]

theorem isPrefixL_extend (p a b : List Char) (h : isPrefixL p a = true) :
    isPrefixL p (a ++ b) = true := by
  induction p generalizing a with
  | nil => rfl
  | cons c rest ih =>
    cases a with
    | nil => simp [isPrefixL] at h
    | cons a0 arest =>
      simp only [isPrefixL, Bool.and_eq_true] at h
      simp [isPrefixL, h.1, ih arest h.2]

theorem containsL_append_right (p a b : List Char)
    (h : containsL p b = true) : containsL p (a ++ b) = true := by
  induction a with
  | nil => exact h
  | cons c rest ih => simp [containsL, ih]

theorem containsL_append_left (p a b : List Char)
    (h : containsL p a = true) : containsL p (a ++ b) = true := by
  induction a with
  | nil =>
    cases p with
    | nil => cases b with
      | nil => exact h
      | cons b0 brest => simp [containsL, isPrefixL]
    | cons p0 prest => simp [containsL, isPrefixL] at h
  | cons c rest ih =>
    simp only [containsL, Bool.or_eq_true] at h ⊢
    rcases h with h | h
    · exact Or.inl (isPrefixL_extend _ _ _ h)
    · exact Or.inr (ih h)

theorem splitOnUnderscore_ne_nil (l : List Char) :
    splitOnUnderscore l ≠ [] := by
  induction l with
  | nil => simp [splitOnUnderscore]
  | cons c rest ih =>
    simp only [splitOnUnderscore]
    cases h : splitOnUnderscore rest with
    | nil => exact absurd h ih
    | cons p parts => by_cases hc : c = '_' <;> simp [hc]

theorem splitOnUnderscore_length (l : List Char) :
    (splitOnUnderscore l).length = l.count '_' + 1 := by
  induction l with
  | nil => rfl
  | cons c rest ih =>
    simp only [splitOnUnderscore]
    cases h : splitOnUnderscore rest with
    | nil => exact absurd h (splitOnUnderscore_ne_nil rest)
    | cons p parts =>
      rw [h] at ih
      by_cases hc : c = '_'
      · subst hc
        simp only [List.count_cons, if_pos rfl, List.length_cons] at ih ⊢
        simpa using ih
      · have hcc : ('_' : Char) ≠ c := fun hx => hc hx.symm
        simp only [List.count_cons, List.length_cons] at ih ⊢
        simp only [beq_iff_eq, if_neg (fun hx => hc hx), hc] at ih ⊢
        simpa [hc] using ih

/-! ## Lemmas about the dictionary model -/

theorem lookupDict_dictPut_self (d : List (String × String)) (k v : String) :
    lookupDict (dictPut d k v) k = some v := by
  induction d with
  | nil => simp [dictPut, lookupDict]
  | cons p rest ih =>
    obtain ⟨k0, v0⟩ := p
    by_cases h : k0 = k
    · subst h; simp [dictPut, lookupDict]
    · simp [dictPut, lookupDict, h, ih]

theorem lookupDict_dictPut_ne (d : List (String × String)) (k v k' : String)
    (h : k' ≠ k) : lookupDict (dictPut d k v) k' = lookupDict d k' := by
  induction d with
  | nil =>
    simp only [dictPut, lookupDict]
    rw [if_neg (fun hx => h hx.symm)]
  | cons p rest ih =>
    obtain ⟨k0, v0⟩ := p
    by_cases h0 : k0 = k
    · subst h0
      simp only [dictPut, if_pos rfl, lookupDict]
      rw [if_neg (fun hx => h hx.symm), if_neg (fun hx => h hx.symm)]
    · simp [dictPut, lookupDict, h0, ih]

theorem lookupDict_dictPut_isSome (d : List (String × String))
    (k v k' : String) (h : (lookupDict d k').isSome = true) :
    (lookupDict (dictPut d k v) k').isSome = true := by
  by_cases hk : k' = k
  · subst hk; simp [lookupDict_dictPut_self]
  · rw [lookupDict_dictPut_ne d k v k' hk]; exact h

theorem lookupDict_eraseKey_ne (d : List (String × String)) (k k' : String)
    (h : k' ≠ k) : lookupDict (eraseKey d k) k' = lookupDict d k' := by
  induction d with
  | nil => rfl
  | cons p rest ih =>
    obtain ⟨k0, v0⟩ := p
    by_cases h0 : k0 = k
    · subst h0
      have he : eraseKey ((k0, v0) :: rest) k0 = eraseKey rest k0 := by
        simp [eraseKey]
      rw [he]
      simp only [lookupDict]
      rw [if_neg (fun hx => h hx.symm)]
      exact ih
    · simp only [eraseKey, if_neg h0]
      by_cases h1 : k0 = k'
      · simp [lookupDict, h1]
      · simp [lookupDict, h1, ih]

theorem eraseKey_of_none (d : List (String × String)) (k : String)
    (h : lookupDict d k = none) : eraseKey d k = d := by
  induction d with
  | nil => rfl
  | cons p rest ih =>
    obtain ⟨k0, v0⟩ := p
    simp only [lookupDict] at h
    by_cases h0 : k0 = k
    · simp [h0] at h
    · simp only [if_neg h0] at h
      simp [eraseKey, h0, ih h]

theorem popKey_eq_eraseKey (d : List (String × String)) (k : String) :
    popKey d k = eraseKey d k := by
  unfold popKey
  cases h : lookupDict d k with
  | none => exact (eraseKey_of_none d k h).symm
  | some v => rfl

theorem lookupDict_popKey_ne (d : List (String × String)) (k k' : String)
    (h : k' ≠ k) : lookupDict (popKey d k) k' = lookupDict d k' := by
  rw [popKey_eq_eraseKey]; exact lookupDict_eraseKey_ne d k k' h

theorem lookupDict_mem (d : List (String × String)) (k v : String)
    (h : lookupDict d k = some v) : (k, v) ∈ d := by
  induction d with
  | nil => simp [lookupDict] at h
  | cons p rest ih =>
    obtain ⟨k0, v0⟩ := p
    simp only [lookupDict] at h
    by_cases h0 : k0 = k
    · subst h0
      rw [if_pos rfl] at h
      obtain rfl : v0 = v := Option.some.inj h
      exact List.mem_cons_self _ _
    · rw [if_neg h0] at h
      exact List.mem_cons_of_mem _ (ih h)

/-! ## Lemmas about the context scanner -/

theorem collectScope_isSome (d : List (String × String))
    (vars : List (String × String)) (k : String)
    (h : (lookupDict vars k).isSome = true) :
    (lookupDict (collectScope vars d) k).isSome = true := by
  induction d generalizing vars with
  | nil => exact h
  | cons p rest ih =>
    obtain ⟨key, val⟩ := p
    simp only [collectScope]
    apply ih
    by_cases hp : strStartsWith "piwik_" key = true
    · rw [if_pos hp]
      exact lookupDict_dictPut_isSome _ _ _ _ h
    · rw [if_neg hp]; exact h

theorem collectScope_mem (d : List (String × String))
    (vars : List (String × String)) (kfull k v : String)
    (hpref : strStartsWith "piwik_" kfull = true)
    (hdrop : strDrop 6 kfull = k) (hmem : (kfull, v) ∈ d) :
    (lookupDict (collectScope vars d) k).isSome = true := by
  induction d generalizing vars with
  | nil => simp at hmem
  | cons p rest ih =>
    obtain ⟨key, val⟩ := p
    rcases List.mem_cons.1 hmem with heq | hmem'
    · obtain ⟨h1, h2⟩ := Prod.mk.injEq .. ▸ heq
      subst h1
      simp only [collectScope, if_pos hpref, hdrop]
      apply collectScope_isSome
      simp [lookupDict_dictPut_self]
    · simp only [collectScope]
      exact ih _ hmem'

theorem collectVarsAux_isSome (scopes : List (List (String × String)))
    (vars : List (String × String)) (k : String)
    (h : (lookupDict vars k).isSome = true) :
    (lookupDict (collectVarsAux vars scopes) k).isSome = true := by
  induction scopes generalizing vars with
  | nil => exact h
  | cons d rest ih =>
    simp only [collectVarsAux]
    exact ih _ (collectScope_isSome d vars k h)

theorem collectVarsAux_mem (scopes : List (List (String × String)))
    (vars d : List (String × String)) (kfull k v : String)
    (hpref : strStartsWith "piwik_" kfull = true)
    (hdrop : strDrop 6 kfull = k) (hd : d ∈ scopes)
    (hkv : (kfull, v) ∈ d) :
    (lookupDict (collectVarsAux vars scopes) k).isSome = true := by
  induction scopes generalizing vars with
  | nil => simp at hd
  | cons d0 rest ih =>
    rcases List.mem_cons.1 hd with heq | hd'
    · simp only [collectVarsAux]
      exact collectVarsAux_isSome rest _ k
        (collectScope_mem d0 vars kfull k v hpref hdrop (heq ▸ hkv))
    · simp only [collectVarsAux]
      exact ih _ hd'

theorem collectVars_mem (scopes : List (List (String × String)))
    (kfull k v : String) (hpref : strStartsWith "piwik_" kfull = true)
    (hdrop : strDrop 6 kfull = k)
    (hmem : ∃ d ∈ scopes, (kfull, v) ∈ d) :
    (lookupDict (collectVars scopes) k).isSome = true := by
  obtain ⟨d, hd, hkv⟩ := hmem
  exact collectVarsAux_mem scopes [] d kfull k v hpref hdrop hd hkv

/-! ## Lemmas about the custom-variable loop and the statement view -/

theorem renderStmts_nil : renderStmts [] = "" := rfl

theorem renderStmts_cons (s : PStmt) (l : List PStmt) :
    renderStmts (s :: l) = s.render ++ renderStmts l := rfl

theorem renderStmts_append (a b : List PStmt) :
    renderStmts (a ++ b) = renderStmts a ++ renderStmts b := by
  induction a with
  | nil => simp [renderStmts_nil, String.empty_append]
  | cons s rest ih =>
    simp [renderStmts_cons, ih, String.append_assoc]

theorem renderStmts_singleton (s : PStmt) : renderStmts [s] = s.render := by
  simp [renderStmts_cons, renderStmts_nil, String.append_empty]

theorem userPretrack_render (ctx : Context) (vars : List (String × String)) :
    userPretrack ctx vars = renderStmts (userPretrackStmts ctx vars) := by
  unfold userPretrack userPretrackStmts
  cases lookupDict vars "userid" with
  | some v => simp [renderStmts_singleton, PStmt.render]
  | none =>
    cases get_user_from_context ctx with
    | none => rfl
    | some user =>
      cases h : user.is_authenticated <;>
        simp [h, renderStmts_singleton, renderStmts_nil, PStmt.render]

theorem titleVarStr_render (vars : List (String × String)) :
    titleVarStr vars = renderStmts (titleStmts vars) := by
  unfold titleVarStr titleStmts
  cases lookupDict vars "document_title" with
  | none => rfl
  | some t => simp [renderStmts_singleton, PStmt.render]

theorem customVarLines_eq (i : Nat) (vs : List (String × String)) :
    customVarLines i vs = Except.map renderStmts (customVarStmts i vs) := by
  induction vs generalizing i with
  | nil => rfl
  | cons p rest ih =>
    obtain ⟨rawName, value⟩ := p
    simp only [customVarLines, customVarStmts]
    cases hs : splitOnUnderscore rawName.data with
    | nil => rfl
    | cons a tail =>
      cases tail with
      | nil => rfl
      | cons b tail2 =>
        cases tail2 with
        | cons c tail3 => rfl
        | nil =>
          rw [ih]
          cases hr : customVarStmts (i + 1) rest with
          | error e => rfl
          | ok l => simp [Except.map, renderStmts_cons, PStmt.render]

theorem customVarStmts_custom (i : Nat) (vs : List (String × String))
    (l : List PStmt) (h : customVarStmts i vs = .ok l) :
    ∀ s ∈ l, s.isCustomVar = true := by
  induction vs generalizing i l with
  | nil =>
    simp only [customVarStmts] at h
    obtain rfl : ([] : List PStmt) = l := Except.ok.inj h
    simp
  | cons p rest ih =>
    obtain ⟨rawName, value⟩ := p
    simp only [customVarStmts] at h
    cases hs : splitOnUnderscore rawName.data with
    | nil => rw [hs] at h; simp at h
    | cons a tail =>
      cases tail with
      | nil => rw [hs] at h; simp at h
      | cons b tail2 =>
        cases tail2 with
        | cons c tail3 => rw [hs] at h; simp at h
        | nil =>
          rw [hs] at h
          cases hr : customVarStmts (i + 1) rest with
          | error e => rw [hr] at h; simp at h
          | ok l' =>
            rw [hr] at h
            obtain rfl := Except.ok.inj h
            intro s hsl
            rcases List.mem_cons.1 hsl with rfl | hsl'
            · rfl
            · exact ih (i + 1) l' hr s hsl'

theorem customVarStmts_indices (i : Nat) (vs : List (String × String))
    (l : List PStmt) (h : customVarStmts i vs = .ok l) :
    l.filterMap PStmt.cvIndex = List.range' i vs.length := by
  induction vs generalizing i l with
  | nil =>
    simp only [customVarStmts] at h
    obtain rfl : ([] : List PStmt) = l := Except.ok.inj h
    rfl
  | cons p rest ih =>
    obtain ⟨rawName, value⟩ := p
    simp only [customVarStmts] at h
    cases hs : splitOnUnderscore rawName.data with
    | nil => rw [hs] at h; simp at h
    | cons a tail =>
      cases tail with
      | nil => rw [hs] at h; simp at h
      | cons b tail2 =>
        cases tail2 with
        | cons c tail3 => rw [hs] at h; simp at h
        | nil =>
          rw [hs] at h
          cases hr : customVarStmts (i + 1) rest with
          | error e => rw [hr] at h; simp at h
          | ok l' =>
            rw [hr] at h
            obtain rfl := Except.ok.inj h
            simp [List.filterMap_cons, PStmt.cvIndex, ih (i + 1) l' hr,
              List.range'_succ]

theorem split_two_iff (l : List Char) :
    (∃ a b, splitOnUnderscore l = [a, b]) ↔ l.count '_' = 1 := by
  constructor
  · rintro ⟨a, b, h⟩
    have hl := splitOnUnderscore_length l
    rw [h] at hl
    simpa using hl.symm
  · intro h
    have hl := splitOnUnderscore_length l
    rw [h] at hl
    cases e : splitOnUnderscore l with
    | nil => rw [e] at hl; simp at hl
    | cons a tail =>
      cases tail with
      | nil => rw [e] at hl; simp at hl
      | cons b tail2 =>
        cases tail2 with
        | nil => exact ⟨a, b, rfl⟩
        | cons c r =>
          rw [e] at hl
          simp only [List.length_cons] at hl
          omega

theorem customVarStmts_ok_iff (i : Nat) (vs : List (String × String)) :
    (∃ l, customVarStmts i vs = .ok l) ↔
      ∀ p ∈ vs, p.1.data.count '_' = 1 := by
  induction vs generalizing i with
  | nil => simp [customVarStmts]
  | cons p rest ih =>
    obtain ⟨rawName, value⟩ := p
    constructor
    · rintro ⟨l, h⟩
      simp only [customVarStmts] at h
      cases hs : splitOnUnderscore rawName.data with
      | nil => rw [hs] at h; simp at h
      | cons a tail =>
        cases tail with
        | nil => rw [hs] at h; simp at h
        | cons b tail2 =>
          cases tail2 with
          | cons c tail3 => rw [hs] at h; simp at h
          | nil =>
            rw [hs] at h
            cases hr : customVarStmts (i + 1) rest with
            | error e => rw [hr] at h; simp at h
            | ok l' =>
              intro q hq
              rcases List.mem_cons.1 hq with rfl | hq'
              · exact (split_two_iff _).mp ⟨a, b, hs⟩
              · exact ((ih (i + 1)).mp ⟨l', hr⟩) q hq'
    · intro hall
      obtain ⟨a, b, hs⟩ :=
        (split_two_iff rawName.data).mpr (hall _ (List.mem_cons_self _ _))
      obtain ⟨l', hr⟩ :=
        (ih (i + 1)).mpr (fun q hq => hall q (List.mem_cons_of_mem _ hq))
      refine ⟨.setCustomVariable i ⟨a⟩ value ⟨b⟩ :: l', ?_⟩
      simp only [customVarStmts, hs, hr]

theorem customVarLines_ok_iff (i : Nat) (vs : List (String × String)) :
    (∃ s, customVarLines i vs = .ok s) ↔
      ∀ p ∈ vs, p.1.data.count '_' = 1 := by
  constructor
  · rintro ⟨s, h⟩
    rw [customVarLines_eq] at h
    cases hc : customVarStmts i vs with
    | error e => rw [hc] at h; simp [Except.map] at h
    | ok l => exact (customVarStmts_ok_iff i vs).mp ⟨l, hc⟩
  · intro hall
    obtain ⟨l, hl⟩ := (customVarStmts_ok_iff i vs).mpr hall
    refine ⟨renderStmts l, ?_⟩
    rw [customVarLines_eq, hl]
    rfl

theorem get_additional_calls_eq (ctx : Context) :
    _get_additional_calls ctx = Except.map renderStmts (additionalStmts ctx) := by
  simp only [_get_additional_calls, additionalStmts]
  rw [customVarLines_eq]
  cases hc : customVarStmts 0
      (popKey (popKey (collectVars ctx.scopes) "userid") "document_title") with
  | error e => rfl
  | ok l =>
    simp [Except.map, userPretrack_render, titleVarStr_render,
      renderStmts_append, String.append_assoc]

/-! ## Substring lifting along appends -/

theorem containsB_append_right (pat a b : String)
    (h : containsB pat b = true) : containsB pat (a ++ b) = true := by
  unfold containsB at h ⊢
  rw [String.data_append]
  exact containsL_append_right _ _ _ h

theorem containsB_append_left (pat a b : String)
    (h : containsB pat a = true) : containsB pat (a ++ b) = true := by
  unfold containsB at h ⊢
  rw [String.data_append]
  exact containsL_append_left _ _ _ h

/-- Any filled pageview tracking code contains the `setSiteId` call of
the example configuration, whatever the pre-track prefix is. -/
theorem tracking_contains_siteid (p : String) :
    containsB "[\x27setSiteId\x27, 5]"
      (TRACKING_CODE pageviewMethod "example.com" "5" p) = true := by
  unfold TRACKING_CODE
  simp only [String.append_assoc]
  apply containsB_append_right
  apply containsB_append_right
  decide

/-- Any filled pageview tracking code contains the tracker URL of the
example configuration, whatever the pre-track prefix is. -/
theorem tracking_contains_url (p : String) :
    containsB "example.com/piwik.php"
      (TRACKING_CODE pageviewMethod "example.com" "5" p) = true := by
  unfold TRACKING_CODE
  simp only [String.append_assoc]
  apply containsB_append_right
  apply containsB_append_right
  decide

/-- A substring of the snippet is still a substring of its disabled
(comment-wrapped) form. -/
theorem containsB_disable (pat html product : String)
    (h : containsB pat html = true) :
    containsB pat (disable_html html product) = true := by
  unfold disable_html
  simp only [String.append_assoc]
  apply containsB_append_right
  apply containsB_append_right
  apply containsB_append_right
  exact containsB_append_left _ _ _ h

/-! ## Context without `piwik_` variables -/

theorem collectScope_no_piwik (vars d : List (String × String))
    (h : ∀ p ∈ d, strStartsWith "piwik_" p.1 = false) :
    collectScope vars d = vars := by
  induction d generalizing vars with
  | nil => rfl
  | cons p rest ih =>
    obtain ⟨k, v⟩ := p
    have hk : strStartsWith "piwik_" k = false := h (k, v) (List.mem_cons_self _ _)
    simp only [collectScope, hk]
    simpa using ih vars (fun q hq => h q (List.mem_cons_of_mem _ hq))

theorem collectVarsAux_no_piwik (scopes : List (List (String × String)))
    (vars : List (String × String))
    (h : ∀ d ∈ scopes, ∀ p ∈ d, strStartsWith "piwik_" p.1 = false) :
    collectVarsAux vars scopes = vars := by
  induction scopes generalizing vars with
  | nil => rfl
  | cons d rest ih =>
    simp only [collectVarsAux]
    rw [collectScope_no_piwik vars d (h d (List.mem_cons_self _ _))]
    exact ih vars (fun d' hd' => h d' (List.mem_cons_of_mem _ hd'))

theorem collectVars_no_piwik (scopes : List (List (String × String)))
    (h : ∀ d ∈ scopes, ∀ p ∈ d, strStartsWith "piwik_" p.1 = false) :
    collectVars scopes = [] :=
  collectVarsAux_no_piwik scopes [] h

/-! ## Concrete fixtures -/

/-- The settings of the specification example:
`PIWIK_DOMAIN_PATH="example.com"`, `PIWIK_SITE_ID="5"`. -/
def exampleSettings : Settings :=
  [("PIWIK_DOMAIN_PATH", "example.com"), ("PIWIK_SITE_ID", "5")]

/-- A context with no scopes, no user, external request. -/
def emptyContext : Context := ⟨[], none, false⟩

/-! ## Claims -/

/-- C1: with `PIWIK_DOMAIN_PATH="example.com"` and `PIWIK_SITE_ID="5"`,
and no `piwik_`-prefixed context variables, the pageview tag node is
constructed with those settings, and every render returns the fixed
template filled with method `['trackPageView']`, the configured domain
and site ID, and the gathered pre-track statements, gated by the
internal-IP check; the result contains `['setSiteId', 5]` and the
tracker URL `example.com/piwik.php`. -/
theorem pageview_example_contains (ctx : Context)
    (hvars : ∀ d ∈ ctx.scopes, ∀ p ∈ d, strStartsWith "piwik_" p.1 = false) :
    ∃ pretrack out,
      PiwikNode.init exampleSettings = .ok ⟨"example.com", "5"⟩ ∧
      _get_additional_calls ctx = .ok pretrack ∧
      PiwikNode.render ⟨"example.com", "5"⟩ ctx = .ok out ∧
      out = (if is_internal_ip ctx "PIWIK" = true then
               disable_html
                 (TRACKING_CODE pageviewMethod "example.com" "5" pretrack) "Piwik"
             else TRACKING_CODE pageviewMethod "example.com" "5" pretrack) ∧
      containsB "[\x27setSiteId\x27, 5]" out = true ∧
      containsB "example.com/piwik.php" out = true := by
  have hcoll : collectVars ctx.scopes = [] := collectVars_no_piwik ctx.scopes hvars
  have hget : _get_additional_calls ctx = .ok (userPretrack ctx []) := by
    simp only [_get_additional_calls, hcoll]
    simp [popKey, lookupDict, titleVarStr, customVarLines, String.empty_append]
  refine ⟨userPretrack ctx [], _, rfl, hget, ?_, rfl, ?_, ?_⟩
  · simp only [PiwikNode.render, hget]
    cases hint : is_internal_ip ctx "PIWIK" <;> simp [hint]
  · cases hint : is_internal_ip ctx "PIWIK"
    · rw [if_neg (by decide : ¬(false = true))]
      exact tracking_contains_siteid _
    · rw [if_pos rfl]
      exact containsB_disable _ _ _ (tracking_contains_siteid _)
  · cases hint : is_internal_ip ctx "PIWIK"
    · rw [if_neg (by decide : ¬(false = true))]
      exact tracking_contains_url _
    · rw [if_pos rfl]
      exact containsB_disable _ _ _ (tracking_contains_url _)

/-- C1 witness: the property instantiated at the empty context. -/
theorem pageview_example_contains_witness :
    (∀ d ∈ emptyContext.scopes, ∀ p ∈ d, strStartsWith "piwik_" p.1 = false) ∧
    ∃ pretrack out,
      PiwikNode.init exampleSettings = .ok ⟨"example.com", "5"⟩ ∧
      _get_additional_calls emptyContext = .ok pretrack ∧
      PiwikNode.render ⟨"example.com", "5"⟩ emptyContext = .ok out ∧
      out = (if is_internal_ip emptyContext "PIWIK" = true then
               disable_html
                 (TRACKING_CODE pageviewMethod "example.com" "5" pretrack) "Piwik"
             else TRACKING_CODE pageviewMethod "example.com" "5" pretrack) ∧
      containsB "[\x27setSiteId\x27, 5]" out = true ∧
      containsB "example.com/piwik.php" out = true :=
  ⟨by simp [emptyContext], pageview_example_contains emptyContext (by simp [emptyContext])⟩

/-- C2: whenever the `PIWIK_DOMAIN_PATH` value does not match
`DOMAINPATH_RE` or the `PIWIK_SITE_ID` value does not match
`SITEID_RE`, constructing the pageview tag node fails with a
configuration error (at construction time, before any render). -/
theorem config_validation_at_construction (stg : Settings) (d i : String)
    (hd : lookupDict stg "PIWIK_DOMAIN_PATH" = some d)
    (hi : lookupDict stg "PIWIK_SITE_ID" = some i)
    (hbad : reMatch DOMAINPATH_RE d = false ∨ reMatch SITEID_RE i = false) :
    ∃ e, PiwikNode.init stg = .error e := by
  unfold PiwikNode.init get_required_setting
  rw [hd, hi]
  rcases hbad with h | h
  · simp [h]
  · cases hdm : reMatch DOMAINPATH_RE d <;> simp [hdm, h]

/-- C2 witness: a schemeful domain path (`http://x.com`) and a
non-numeric site ID each fail the respective pattern, and node
construction fails on such settings. -/
theorem config_validation_at_construction_witness :
    reMatch DOMAINPATH_RE "http://x.com" = false ∧
    reMatch SITEID_RE "abc" = false ∧
    (∃ e, PiwikNode.init
        [("PIWIK_DOMAIN_PATH", "http://x.com"), ("PIWIK_SITE_ID", "5")] = .error e) ∧
    (∃ e, PiwikNode.init
        [("PIWIK_DOMAIN_PATH", "example.com"), ("PIWIK_SITE_ID", "abc")] = .error e) :=
  ⟨by decide, by decide,
    config_validation_at_construction _ "http://x.com" "5" (by decide) (by decide)
      (Or.inl (by decide)),
    config_validation_at_construction _ "example.com" "abc" (by decide) (by decide)
      (Or.inr (by decide))⟩

/-- C3: the search tag's category and result-count default to `false`;
with valid settings its output is the template filled with a
`trackSiteSearch` method whose arguments are JSON-encoded; in
particular query `"shoes"`, category `"apparel"`, count `10` yield
`['trackSiteSearch', "shoes", "apparel", 10]`. -/
theorem search_method_json :
    (∀ (stg : Settings) (ctx : Context) (q : String),
      piwik_search stg ctx q =
        piwik_search stg ctx q (JVal.bool false) (JVal.bool false)) ∧
    (∀ (stg : Settings) (ctx : Context) (q : String) (cat cnt : JVal)
        (d i p : String),
      lookupDict stg "PIWIK_DOMAIN_PATH" = some d →
      reMatch DOMAINPATH_RE d = true →
      lookupDict stg "PIWIK_SITE_ID" = some i →
      reMatch SITEID_RE i = true →
      _get_additional_calls ctx = .ok p →
      piwik_search stg ctx q cat cnt =
        .ok (if is_internal_ip ctx "PIWIK" = true then
               disable_html (TRACKING_CODE (searchMethod q cat cnt) d i p) "Piwik"
             else TRACKING_CODE (searchMethod q cat cnt) d i p)) ∧
    searchMethod "shoes" (.str "apparel") (.num 10) =
      "[\x27trackSiteSearch\x27, \"shoes\", \"apparel\", 10]" ∧
    (∃ out,
      piwik_search exampleSettings emptyContext "shoes" (.str "apparel") (.num 10) =
        .ok out ∧
      containsB "[\x27trackSiteSearch\x27, \"shoes\", \"apparel\", 10]" out = true) := by
  refine ⟨fun stg ctx q => rfl, ?_, by decide, ⟨_, rfl, by decide⟩⟩
  intro stg ctx q cat cnt d i p hd hdm hi him hp
  cases hint : is_internal_ip ctx "PIWIK" <;>
    simp [piwik_search, get_required_setting, hd, hi, hdm, him, hp, hint]

/-- C3 witness: the general output shape instantiated at the example
settings, the empty context and the example search arguments. -/
theorem search_method_json_witness :
    piwik_search exampleSettings emptyContext "shoes" (.str "apparel") (.num 10) =
      .ok (TRACKING_CODE (searchMethod "shoes" (.str "apparel") (.num 10))
            "example.com" "5" "") := by
  have h := search_method_json.2.1 exampleSettings emptyContext "shoes"
    (.str "apparel") (.num 10) "example.com" "5" "" (by decide) (by decide)
    (by decide) (by decide) (by rfl)
  rw [show is_internal_ip emptyContext "PIWIK" = false from rfl] at h
  simpa using h

/-- C7: the search tag re-validates the settings on every call (an
invalid setting value fails each invocation), whereas the pageview tag
validates at node construction only: a successfully constructed node
stores pattern-matching settings, and `render` performs no setting
validation at all (it succeeds even on a node whose fields match no
pattern, as soon as the pre-track scan succeeds). -/
theorem validation_timing :
    (∀ (stg : Settings) (ctx : Context) (q : String) (cat cnt : JVal)
        (d i : String),
      lookupDict stg "PIWIK_DOMAIN_PATH" = some d →
      lookupDict stg "PIWIK_SITE_ID" = some i →
      (reMatch DOMAINPATH_RE d = false ∨ reMatch SITEID_RE i = false) →
      ∃ e, piwik_search stg ctx q cat cnt = .error e) ∧
    (∀ (stg : Settings) (node : PiwikNode),
      PiwikNode.init stg = .ok node →
      reMatch DOMAINPATH_RE node.domain_path = true ∧
      reMatch SITEID_RE node.site_id = true) ∧
    (∀ (dp si : String) (ctx : Context) (p : String),
      _get_additional_calls ctx = .ok p →
      ∃ out, PiwikNode.render ⟨dp, si⟩ ctx = .ok out) := by
  refine ⟨?_, ?_, ?_⟩
  · intro stg ctx q cat cnt d i hd hi hbad
    unfold piwik_search get_required_setting
    rw [hd, hi]
    rcases hbad with h | h
    · simp [h]
    · cases hdm : reMatch DOMAINPATH_RE d <;> simp [hdm, h]
  · intro stg node h
    unfold PiwikNode.init get_required_setting at h
    cases hd : lookupDict stg "PIWIK_DOMAIN_PATH" with
    | none => simp [hd] at h
    | some d =>
      cases hdm : reMatch DOMAINPATH_RE d with
      | false => simp [hd, hdm] at h
      | true =>
        cases hi : lookupDict stg "PIWIK_SITE_ID" with
        | none => simp [hd, hdm, hi] at h
        | some i =>
          cases him : reMatch SITEID_RE i with
          | false => simp [hd, hdm, hi, him] at h
          | true =>
            simp [hd, hdm, hi, him] at h
            rw [← h]
            exact ⟨hdm, him⟩
  · intro dp si ctx p hp
    unfold PiwikNode.render
    rw [hp]
    cases hint : is_internal_ip ctx "PIWIK" <;> simp [hint]

/-- C7 witness: a search call on a non-matching site ID fails, while a
node carrying those same invalid values renders successfully (no
validation at render time). -/
theorem validation_timing_witness :
    (∃ e, piwik_search
        [("PIWIK_DOMAIN_PATH", "example.com"), ("PIWIK_SITE_ID", "abc")]
        emptyContext "q" (.bool false) (.bool false) = .error e) ∧
    (∃ out, PiwikNode.render ⟨"http://x.com", "abc"⟩ emptyContext = .ok out) :=
  ⟨validation_timing.1 _ emptyContext "q" (.bool false) (.bool false)
      "example.com" "abc" (by decide) (by decide) (Or.inr (by decide)),
    validation_timing.2.2 "http://x.com" "abc" emptyContext _ rfl⟩

/-- C5: a collected custom-variable key (other than `userid` and
`document_title`) whose suffix has no underscore makes the scan raise
at render time, and the pageview render surfaces the error to the
caller. -/
theorem malformed_key_raises (ctx : Context) (k v : String)
    (hk : lookupDict (collectVars ctx.scopes) k = some v)
    (hk1 : k ≠ "userid") (hk2 : k ≠ "document_title")
    (hcount : k.data.count '_' = 0) :
    (∃ e, _get_additional_calls ctx = .error e) ∧
    (∀ node : PiwikNode, ∃ e, PiwikNode.render node ctx = .error e) := by
  have hrem : lookupDict
      (popKey (popKey (collectVars ctx.scopes) "userid") "document_title") k =
      some v := by
    rw [lookupDict_popKey_ne _ _ _ hk2, lookupDict_popKey_ne _ _ _ hk1]
    exact hk
  have hmem := lookupDict_mem _ _ _ hrem
  obtain ⟨e, he⟩ : ∃ e, customVarLines 0
      (popKey (popKey (collectVars ctx.scopes) "userid") "document_title") =
      .error e := by
    cases hc : customVarLines 0
        (popKey (popKey (collectVars ctx.scopes) "userid") "document_title") with
    | error e => exact ⟨e, rfl⟩
    | ok s =>
      have h1 := (customVarLines_ok_iff 0 _).mp ⟨s, hc⟩ (k, v) hmem
      simp only at h1
      omega
  have hget : _get_additional_calls ctx = .error e := by
    simp only [_get_additional_calls, he]
  exact ⟨⟨e, hget⟩, fun node => ⟨e, by simp only [PiwikNode.render, hget]⟩⟩

/-- C5 witness: a context binding `piwik_bad` (no underscore in the
suffix) makes both the scan and the render fail. -/
theorem malformed_key_raises_witness :
    lookupDict (collectVars [[("piwik_bad", "v")]]) "bad" = some "v" ∧
    (∃ e, _get_additional_calls ⟨[[("piwik_bad", "v")]], none, false⟩ = .error e) ∧
    (∃ e, PiwikNode.render ⟨"example.com", "5"⟩
      ⟨[[("piwik_bad", "v")]], none, false⟩ = .error e) :=
  ⟨by decide,
    (malformed_key_raises ⟨[[("piwik_bad", "v")]], none, false⟩ "bad" "v"
      (by decide) (by decide) (by decide) (by decide)).1,
    (malformed_key_raises ⟨[[("piwik_bad", "v")]], none, false⟩ "bad" "v"
      (by decide) (by decide) (by decide) (by decide)).2 ⟨"example.com", "5"⟩⟩

/-- C9: the scan succeeds exactly when every remaining custom-variable
key suffix contains exactly one underscore (splits into exactly a name
and a scope); in particular `piwik_a_b_c` (two underscores) raises at
render time. -/
theorem key_split_iff :
    (∀ ctx : Context,
      (∃ s, _get_additional_calls ctx = .ok s) ↔
        ∀ p ∈ remainingVars ctx, p.1.data.count '_' = 1) ∧
    (∃ e, _get_additional_calls ⟨[[("piwik_a_b_c", "v")]], none, false⟩ =
      .error e) := by
  constructor
  · intro ctx
    unfold remainingVars
    constructor
    · rintro ⟨s, hs⟩
      cases hc : customVarLines 0
          (popKey (popKey (collectVars ctx.scopes) "userid") "document_title") with
      | error e => simp only [_get_additional_calls, hc] at hs; simp at hs
      | ok cv => exact (customVarLines_ok_iff 0 _).mp ⟨cv, hc⟩
    · intro hall
      obtain ⟨cv, hc⟩ := (customVarLines_ok_iff 0 _).mpr hall
      exact ⟨titleVarStr (popKey (collectVars ctx.scopes) "userid") ++ cv ++
          userPretrack ctx (collectVars ctx.scopes),
        by simp only [_get_additional_calls, hc]⟩
  · exact ⟨_, rfl⟩

/-- C9 witness: for a well-formed key (`piwik_name_scope`) the
equivalence is instantiated in the succeeding direction. -/
theorem key_split_iff_witness :
    (∃ s, _get_additional_calls ⟨[[("piwik_name_scope", "v")]], none, false⟩ =
      .ok s) ∧
    (∀ p ∈ remainingVars ⟨[[("piwik_name_scope", "v")]], none, false⟩,
      p.1.data.count '_' = 1) :=
  ⟨(key_split_iff.1 _).mpr (by decide), by decide⟩

/-! ## Lemmas on the shape of the statement list -/

theorem additionalStmts_shape (ctx : Context) (l : List PStmt)
    (h : additionalStmts ctx = .ok l) :
    ∃ lcv, customVarStmts 0
        (popKey (popKey (collectVars ctx.scopes) "userid") "document_title") =
        .ok lcv ∧
      l = titleStmts (popKey (collectVars ctx.scopes) "userid") ++ lcv ++
          userPretrackStmts ctx (collectVars ctx.scopes) := by
  simp only [additionalStmts] at h
  cases hc : customVarStmts 0
      (popKey (popKey (collectVars ctx.scopes) "userid") "document_title") with
  | error e => rw [hc] at h; simp at h
  | ok lcv =>
    rw [hc] at h
    exact ⟨lcv, rfl, (Except.ok.inj h).symm⟩

theorem userPretrackStmts_some (ctx : Context)
    (vars : List (String × String)) (v : String)
    (h : lookupDict vars "userid" = some v) :
    userPretrackStmts ctx vars = [.setUserId v] := by
  unfold userPretrackStmts
  rw [h]

theorem userPretrackStmts_all (ctx : Context)
    (vars : List (String × String)) :
    ∀ s ∈ userPretrackStmts ctx vars, PStmt.isSetUserId s = true := by
  unfold userPretrackStmts
  cases lookupDict vars "userid" with
  | some v => simp [PStmt.isSetUserId]
  | none =>
    cases get_user_from_context ctx with
    | none => simp
    | some u => cases u.is_authenticated <;> simp [PStmt.isSetUserId]

theorem titleStmts_filter_setUserId (vars : List (String × String)) :
    (titleStmts vars).filter PStmt.isSetUserId = [] := by
  unfold titleStmts
  cases lookupDict vars "document_title" <;>
    simp [List.filter_cons, PStmt.isSetUserId]

theorem custom_filter_setUserId (l : List PStmt)
    (h : ∀ s ∈ l, PStmt.isCustomVar s = true) :
    l.filter PStmt.isSetUserId = [] := by
  induction l with
  | nil => rfl
  | cons s rest ih =>
    have hs := h s (List.mem_cons_self _ _)
    have hfalse : PStmt.isSetUserId s = false := by
      cases s <;> simp_all [PStmt.isCustomVar, PStmt.isSetUserId]
    simp [List.filter_cons, hfalse,
      ih (fun q hq => h q (List.mem_cons_of_mem _ hq))]

theorem titleStmts_cvIndex (vars : List (String × String)) :
    (titleStmts vars).filterMap PStmt.cvIndex = [] := by
  unfold titleStmts
  cases lookupDict vars "document_title" <;> simp [PStmt.cvIndex]

theorem userStmts_cvIndex (ctx : Context) (vars : List (String × String)) :
    (userPretrackStmts ctx vars).filterMap PStmt.cvIndex = [] := by
  unfold userPretrackStmts
  cases lookupDict vars "userid" with
  | some v => simp [PStmt.cvIndex]
  | none =>
    cases get_user_from_context ctx with
    | none => rfl
    | some u => cases u.is_authenticated <;> simp [PStmt.cvIndex]

/-- C10: the `setCustomVariable` indices are exactly `0, 1, ..., n-1`
in iteration order, where `n` is the number of remaining
custom-variable keys, and no index reaches `n`. -/
theorem custom_variable_indices (ctx : Context) (l : List PStmt)
    (h : additionalStmts ctx = .ok l) :
    l.filterMap PStmt.cvIndex = List.range (remainingVars ctx).length ∧
    (l.filterMap PStmt.cvIndex).length = (remainingVars ctx).length ∧
    (∀ j ∈ l.filterMap PStmt.cvIndex, j < (remainingVars ctx).length) := by
  obtain ⟨lcv, hc, rfl⟩ := additionalStmts_shape ctx l h
  have hidx := customVarStmts_indices 0 _ lcv hc
  have hmain : (titleStmts (popKey (collectVars ctx.scopes) "userid") ++ lcv ++
      userPretrackStmts ctx (collectVars ctx.scopes)).filterMap PStmt.cvIndex =
      List.range (remainingVars ctx).length := by
    rw [List.filterMap_append, List.filterMap_append, titleStmts_cvIndex,
      userStmts_cvIndex, hidx, List.range_eq_range']
    simp [remainingVars]
  refine ⟨hmain, ?_, ?_⟩
  · rw [hmain]; simp
  · intro j hj
    rw [hmain] at hj
    exact List.mem_range.mp hj

/-- C10 witness: two custom variables receive indices 0 and 1. -/
theorem custom_variable_indices_witness :
    additionalStmts ⟨[[("piwik_a_page", "v1"), ("piwik_b_visit", "v2")]], none, false⟩ =
      .ok [.setCustomVariable 0 "a" "v1" "page",
           .setCustomVariable 1 "b" "v2" "visit"] ∧
    [PStmt.setCustomVariable 0 "a" "v1" "page",
     PStmt.setCustomVariable 1 "b" "v2" "visit"].filterMap PStmt.cvIndex =
      List.range (remainingVars
        ⟨[[("piwik_a_page", "v1"), ("piwik_b_visit", "v2")]], none, false⟩).length :=
  ⟨rfl,
    (custom_variable_indices
      ⟨[[("piwik_a_page", "v1"), ("piwik_b_visit", "v2")]], none, false⟩ _ rfl).1⟩

/-- C4: when some scope binds `piwik_userid`, the scanner collects a
`userid` value `v`; the emitted statements are the same whatever the
request user is (no identity lookup is consulted), the rendered string
is the rendering of those statements, and they contain exactly one
`setUserId` call, carrying `v`.  The identity lookup produces the
`setUserId` call only when `userid` is absent and the user is
authenticated; with no user at all, or with a present but
unauthenticated user, no `setUserId` is emitted. -/
theorem userid_single_call :
    (∀ ctx : Context,
      (∃ d ∈ ctx.scopes, ∃ v0, ("piwik_userid", v0) ∈ d) →
      ∃ v, lookupDict (collectVars ctx.scopes) "userid" = some v ∧
        additionalStmts ctx = additionalStmts ⟨ctx.scopes, none, ctx.internal⟩ ∧
        _get_additional_calls ctx = Except.map renderStmts (additionalStmts ctx) ∧
        ∀ l, additionalStmts ctx = .ok l →
          l.filter PStmt.isSetUserId = [.setUserId v]) ∧
    (∀ (ctx : Context) (u : User),
      lookupDict (collectVars ctx.scopes) "userid" = none →
      ctx.user = some u → u.is_authenticated = true →
      ∀ l, additionalStmts ctx = .ok l →
        l.filter PStmt.isSetUserId = [.setUserId u.username]) ∧
    (∀ ctx : Context,
      lookupDict (collectVars ctx.scopes) "userid" = none →
      ctx.user = none →
      ∀ l, additionalStmts ctx = .ok l →
        l.filter PStmt.isSetUserId = []) ∧
    (∀ (ctx : Context) (u : User),
      lookupDict (collectVars ctx.scopes) "userid" = none →
      ctx.user = some u → u.is_authenticated = false →
      ∀ l, additionalStmts ctx = .ok l →
        l.filter PStmt.isSetUserId = []) := by
  refine ⟨?_, ?_, ?_, ?_⟩
  · intro ctx hbind
    obtain ⟨d, hd, v0, hv0⟩ := hbind
    have hsome : (lookupDict (collectVars ctx.scopes) "userid").isSome = true :=
      collectVars_mem ctx.scopes "piwik_userid" "userid" v0 (by decide)
        (by decide) ⟨d, hd, hv0⟩
    obtain ⟨v, hv⟩ := Option.isSome_iff_exists.mp hsome
    refine ⟨v, hv, ?_, get_additional_calls_eq ctx, ?_⟩
    · have h1 : userPretrackStmts ctx (collectVars ctx.scopes) = [.setUserId v] :=
        userPretrackStmts_some _ _ v hv
      have h2 : userPretrackStmts ⟨ctx.scopes, none, ctx.internal⟩
          (collectVars ctx.scopes) = [.setUserId v] :=
        userPretrackStmts_some _ _ v hv
      simp only [additionalStmts, h1, h2]
    · intro l hl
      obtain ⟨lcv, hc, rfl⟩ := additionalStmts_shape ctx l hl
      rw [userPretrackStmts_some ctx _ v hv]
      rw [List.filter_append, List.filter_append, titleStmts_filter_setUserId,
        custom_filter_setUserId lcv (customVarStmts_custom 0 _ lcv hc)]
      simp [List.filter_cons, PStmt.isSetUserId]
  · intro ctx u hnone huser hauth l hl
    obtain ⟨lcv, hc, rfl⟩ := additionalStmts_shape ctx l hl
    have hu : userPretrackStmts ctx (collectVars ctx.scopes) =
        [.setUserId u.username] := by
      unfold userPretrackStmts
      rw [hnone]
      simp [get_user_from_context, huser, hauth, get_identity, _identify]
    rw [hu, List.filter_append, List.filter_append, titleStmts_filter_setUserId,
      custom_filter_setUserId lcv (customVarStmts_custom 0 _ lcv hc)]
    simp [List.filter_cons, PStmt.isSetUserId]
  · intro ctx hnone huser l hl
    obtain ⟨lcv, hc, rfl⟩ := additionalStmts_shape ctx l hl
    have hu : userPretrackStmts ctx (collectVars ctx.scopes) = [] := by
      unfold userPretrackStmts
      rw [hnone]
      simp [get_user_from_context, huser]
    rw [hu, List.filter_append, List.filter_append, titleStmts_filter_setUserId,
      custom_filter_setUserId lcv (customVarStmts_custom 0 _ lcv hc)]
    rfl
  · intro ctx u hnone huser hauth l hl
    obtain ⟨lcv, hc, rfl⟩ := additionalStmts_shape ctx l hl
    have hu : userPretrackStmts ctx (collectVars ctx.scopes) = [] := by
      unfold userPretrackStmts
      rw [hnone]
      simp [get_user_from_context, huser, hauth]
    rw [hu, List.filter_append, List.filter_append, titleStmts_filter_setUserId,
      custom_filter_setUserId lcv (customVarStmts_custom 0 _ lcv hc)]
    rfl

/-- C4 witness: a context binding `piwik_userid="42"` with an
authenticated user present yields exactly one `setUserId` statement,
carrying `"42"`, independent of the user; and with no `piwik_userid`
and a present but unauthenticated user, no `setUserId` is emitted. -/
theorem userid_single_call_witness :
    (∃ d ∈ ([[("piwik_userid", "42")]] : List (List (String × String))),
      ∃ v0, ("piwik_userid", v0) ∈ d) ∧
    (∃ v, lookupDict
        (collectVars (Context.mk [[("piwik_userid", "42")]]
          (some ⟨"alice", true⟩) false).scopes) "userid" = some v ∧
      additionalStmts (Context.mk [[("piwik_userid", "42")]]
          (some ⟨"alice", true⟩) false) =
        additionalStmts ⟨(Context.mk [[("piwik_userid", "42")]]
          (some ⟨"alice", true⟩) false).scopes, none,
          (Context.mk [[("piwik_userid", "42")]]
            (some ⟨"alice", true⟩) false).internal⟩ ∧
      _get_additional_calls (Context.mk [[("piwik_userid", "42")]]
          (some ⟨"alice", true⟩) false) =
        Except.map renderStmts (additionalStmts
          (Context.mk [[("piwik_userid", "42")]] (some ⟨"alice", true⟩) false)) ∧
      ∀ l, additionalStmts (Context.mk [[("piwik_userid", "42")]]
          (some ⟨"alice", true⟩) false) = .ok l →
        l.filter PStmt.isSetUserId = [.setUserId v]) ∧
    additionalStmts (Context.mk [] (some ⟨"bob", false⟩) false) = .ok [] ∧
    ([] : List PStmt).filter PStmt.isSetUserId = [] :=
  ⟨⟨[("piwik_userid", "42")], by simp, "42", by simp⟩,
    userid_single_call.1 (Context.mk [[("piwik_userid", "42")]]
        (some ⟨"alice", true⟩) false)
      ⟨[("piwik_userid", "42")], by simp, "42", by simp⟩,
    rfl,
    userid_single_call.2.2.2 (Context.mk [] (some ⟨"bob", false⟩) false)
      ⟨"bob", false⟩ rfl rfl rfl [] rfl⟩

/-- C6: a collected `document_title` value yields a `setDocumentTitle`
statement heading the emitted statement list (so it precedes every
`setCustomVariable` call), and the rendered pre-track string starts
with that `setDocumentTitle` line. -/
theorem document_title_first (ctx : Context) (t : String)
    (ht : lookupDict (collectVars ctx.scopes) "document_title" = some t) :
    (∀ l, additionalStmts ctx = .ok l →
      ∃ rest, l = .setDocumentTitle t :: rest ∧
        ∀ s ∈ rest, PStmt.isSetDocumentTitle s = false) ∧
    (∀ p, _get_additional_calls ctx = .ok p →
      ∃ p2, p = setDocumentTitleLine t ++ p2) := by
  have ht' : lookupDict (popKey (collectVars ctx.scopes) "userid")
      "document_title" = some t := by
    rw [lookupDict_popKey_ne _ _ _ (by decide)]
    exact ht
  have htitle : titleStmts (popKey (collectVars ctx.scopes) "userid") =
      [.setDocumentTitle t] := by
    unfold titleStmts
    rw [ht']
  constructor
  · intro l hl
    obtain ⟨lcv, hc, rfl⟩ := additionalStmts_shape ctx l hl
    rw [htitle]
    refine ⟨lcv ++ userPretrackStmts ctx (collectVars ctx.scopes), by simp, ?_⟩
    intro s hs
    rcases List.mem_append.mp hs with hs' | hs'
    · have := customVarStmts_custom 0 _ lcv hc s hs'
      cases s <;> simp_all [PStmt.isCustomVar, PStmt.isSetDocumentTitle]
    · have := userPretrackStmts_all ctx (collectVars ctx.scopes) s hs'
      cases s <;> simp_all [PStmt.isSetUserId, PStmt.isSetDocumentTitle]
  · intro p hp
    simp only [_get_additional_calls] at hp
    cases hc : customVarLines 0
        (popKey (popKey (collectVars ctx.scopes) "userid") "document_title") with
    | error e => rw [hc] at hp; simp at hp
    | ok cv =>
      rw [hc] at hp
      have h1 : titleVarStr (popKey (collectVars ctx.scopes) "userid") =
          setDocumentTitleLine t := by
        unfold titleVarStr
        rw [ht']
      obtain rfl := Except.ok.inj hp
      refine ⟨cv ++ userPretrack ctx (collectVars ctx.scopes), ?_⟩
      rw [h1, String.append_assoc]

/-- C6 witness: with `piwik_document_title="Home"` and one custom
variable, the title statement heads the list and the title line heads
the string. -/
theorem document_title_first_witness :
    lookupDict (collectVars [[("piwik_document_title", "Home"),
      ("piwik_a_page", "v")]]) "document_title" = some "Home" ∧
    (∃ rest,
      ([PStmt.setDocumentTitle "Home",
        PStmt.setCustomVariable 0 "a" "v" "page"] : List PStmt) =
        .setDocumentTitle "Home" :: rest ∧
        ∀ s ∈ rest, PStmt.isSetDocumentTitle s = false) ∧
    (∃ p2, setDocumentTitleLine "Home" ++ setCustomVariableLine 0 "a" "v" "page" =
      setDocumentTitleLine "Home" ++ p2) :=
  ⟨by decide,
    (document_title_first
      ⟨[[("piwik_document_title", "Home"), ("piwik_a_page", "v")]], none, false⟩
      "Home" (by decide)).1 _ rfl,
    (document_title_first
      ⟨[[("piwik_document_title", "Home"), ("piwik_a_page", "v")]], none, false⟩
      "Home" (by decide)).2 _ rfl⟩

/-! ## Comment stripping of the disabled snippet -/

theorem stripFuel_empty (fuel : Nat) (st : Bool) :
    stripFuel fuel st [] = [] := by
  cases fuel <;> cases st <;> rfl

/-- Scanning inside a comment whose body holds no terminator reaches
the final `-->` and ends with nothing live. -/
theorem stripFuel_in_comment (b : List Char) (fuel : Nat)
    (hb : containsL ['-', '-', '>'] b = false)
    (hfuel : b.length + 3 ≤ fuel) :
    stripFuel fuel true (b ++ ['-', '-', '>']) = [] := by
  induction b generalizing fuel with
  | nil =>
    cases fuel with
    | zero => omega
    | succ f =>
      simp [stripFuel, isPrefixL, stripFuel_empty]
  | cons c b' ih =>
    cases fuel with
    | zero => omega
    | succ f =>
      simp only [containsL, Bool.or_eq_false_iff] at hb
      obtain ⟨hpre, hcont'⟩ := hb
      have hcond : isPrefixL ['-', '-', '>'] (c :: (b' ++ ['-', '-', '>'])) =
          false := by
        cases b' with
        | nil => simp [isPrefixL]
        | cons d b'' =>
          cases b'' with
          | nil => simp [isPrefixL]
          | cons e b3 =>
            have : isPrefixL ['-', '-', '>'] (c :: (d :: e :: b3 ++ ['-', '-', '>'])) =
                isPrefixL ['-', '-', '>'] (c :: d :: e :: b3) := by
              simp [isPrefixL]
            rw [List.cons_append, List.cons_append] at this ⊢
            rw [this]
            exact hpre
      rw [List.cons_append]
      simp only [stripFuel]
      rw [hcond]
      simp only [Bool.false_eq_true, if_false]
      exact ih f hcont' (by simp only [List.length_cons] at hfuel; omega)

/-- Opening the wrapper comment and scanning a terminator-free body
strips the whole string. -/
theorem stripFuel_wrapped (b : List Char) (fuel : Nat)
    (hb : containsL ['-', '-', '>'] b = false)
    (hfuel : b.length + 4 ≤ fuel) :
    stripFuel fuel false ('<' :: '!' :: '-' :: '-' :: (b ++ ['-', '-', '>'])) =
      [] := by
  cases fuel with
  | zero => omega
  | succ f =>
    simp only [stripFuel]
    rw [if_pos (by simp [isPrefixL])]
    have hdrop : ('!' :: '-' :: '-' :: (b ++ ['-', '-', '>'])).drop 3 =
        b ++ ['-', '-', '>'] := rfl
    rw [hdrop]
    exact stripFuel_in_comment b f hb (by omega)

/-- The disabled (comment-wrapped) snippet has no live `<script` as
long as the comment body does not contain the terminator `-->`. -/
theorem disabled_no_live_script (html : String)
    (h : containsB "-->"
      (" Piwik disabled on internal IP address\n" ++ html ++ "\n") = false) :
    hasLiveScript (disable_html html "Piwik") = false := by
  have hb : containsL ['-', '-', '>']
      (" Piwik disabled on internal IP address\n".data ++
        (html.data ++ ['\n'])) = false := by
    unfold containsB at h
    rw [String.data_append, String.data_append] at h
    rw [show "\n".data = ['\n'] from rfl] at h
    rw [show ("-->").data = ['-', '-', '>'] from rfl] at h
    rw [List.append_assoc] at h
    exact h
  have hdata : (disable_html html "Piwik").data =
      '<' :: '!' :: '-' :: '-' ::
        ((" Piwik disabled on internal IP address\n".data ++
          (html.data ++ ['\n'])) ++ ['-', '-', '>']) := by
    have hraw : (disable_html html "Piwik").data =
        '<' :: '!' :: '-' :: '-' ::
          (" Piwik disabled on internal IP address\n".data ++
            (html.data ++ ('\n' :: ['-', '-', '>']))) := rfl
    rw [hraw]
    simp [List.append_assoc]
  unfold hasLiveScript liveMarkup containsB
  rw [hdata]
  rw [stripFuel_wrapped _ _ hb (by simp [List.length_append])]
  rfl

/-- C8 (amended): when the internal-IP check flags the request, both
tags return exactly the comment-wrapped disabled form of the filled
snippet, and otherwise the snippet unchanged; the disabled form
carries no live `<script` opener provided the comment body does not
contain the terminator sequence `-->`. -/
theorem internal_ip_gate :
    (∀ (node : PiwikNode) (ctx : Context) (p : String),
      _get_additional_calls ctx = .ok p →
      (is_internal_ip ctx "PIWIK" = true →
        PiwikNode.render node ctx =
          .ok (disable_html
            (TRACKING_CODE pageviewMethod node.domain_path node.site_id p)
            "Piwik")) ∧
      (is_internal_ip ctx "PIWIK" = false →
        PiwikNode.render node ctx =
          .ok (TRACKING_CODE pageviewMethod node.domain_path node.site_id p))) ∧
    (∀ (stg : Settings) (ctx : Context) (q : String) (cat cnt : JVal)
        (d i p : String),
      lookupDict stg "PIWIK_DOMAIN_PATH" = some d →
      reMatch DOMAINPATH_RE d = true →
      lookupDict stg "PIWIK_SITE_ID" = some i →
      reMatch SITEID_RE i = true →
      _get_additional_calls ctx = .ok p →
      (is_internal_ip ctx "PIWIK" = true →
        piwik_search stg ctx q cat cnt =
          .ok (disable_html (TRACKING_CODE (searchMethod q cat cnt) d i p)
            "Piwik")) ∧
      (is_internal_ip ctx "PIWIK" = false →
        piwik_search stg ctx q cat cnt =
          .ok (TRACKING_CODE (searchMethod q cat cnt) d i p))) ∧
    (∀ html : String,
      containsB "-->"
        (" Piwik disabled on internal IP address\n" ++ html ++ "\n") = false →
      hasLiveScript (disable_html html "Piwik") = false) := by
  refine ⟨?_, ?_, disabled_no_live_script⟩
  · intro node ctx p hp
    constructor <;> intro hint <;>
      simp [PiwikNode.render, hp, hint]
  · intro stg ctx q cat cnt d i p hd hdm hi him hp
    constructor <;> intro hint <;>
      simp [piwik_search, get_required_setting, hd, hi, hdm, him, hp, hint]

/-- C8 witness: on the example settings with an internal request and a
benign context the pageview tag returns the disabled form, which shows
no live `<script` opener. -/
theorem internal_ip_gate_witness :
    PiwikNode.render ⟨"example.com", "5"⟩ ⟨[], none, true⟩ =
      .ok (disable_html (TRACKING_CODE pageviewMethod "example.com" "5" "")
        "Piwik") ∧
    hasLiveScript
      (disable_html (TRACKING_CODE pageviewMethod "example.com" "5" "")
        "Piwik") = false :=
  ⟨(internal_ip_gate.1 ⟨"example.com", "5"⟩ ⟨[], none, true⟩ "" rfl).1 rfl,
    internal_ip_gate.2.2 (TRACKING_CODE pageviewMethod "example.com" "5" "")
      (by decide)⟩

/-- C8 counterexample: a context value holding `-->` followed by a
script tag makes the comment-wrapped disabled output carry a live
`<script` opener, so the flagged output is not free of live script
markup in general. -/
theorem internal_ip_gate_cex :
    is_internal_ip
      ⟨[[("piwik_document_title", "--><script>alert(1)</script>")]], none, true⟩
      "PIWIK" = true ∧
    resultHasLiveScript (PiwikNode.render ⟨"example.com", "5"⟩
      ⟨[[("piwik_document_title", "--><script>alert(1)</script>")]], none, true⟩) =
      true :=
  ⟨rfl, by decide⟩

end PiwikTags
